import Mathlib

/-!
Shallow embedding of the jokeset scraper (src/main.rs, src/wocka.rs,
src/error.rs) and verification of its specification claims.

The HTML document is abstracted at the level the extraction code observes
it: the text content delivered by the three fixed selectors.  Machine
integers are modelled as Nat; the only place where u64 wrap-around matters
(construction of a page id) reduces modulo 2^64 explicitly.
-/

namespace Jokeset

/-- Embedding of src/error.rs `enum Error`. -/
inductive Error where
  | Unhandled (msg : String)
  | Io
  | Request
  | Json
deriving DecidableEq, Repr

/-- Embedding of `WockaJoke` (src/main.rs lines 64-70); `id` models the
NonZeroU64 value as a Nat. -/
structure WockaJoke where
  title : String
  body : String
  id : Nat
  category : String
deriving DecidableEq, Repr

/-- Embedding of `Joke` (src/main.rs lines 80-85), the record serialized to
the CSV sink. -/
structure Joke where
  footer : String
  body : String
  title : String
deriving DecidableEq, Repr

/-- Embedding of `impl From<WockaJoke> for Joke` (src/main.rs lines 87-98). -/
def Joke.ofWocka (value : WockaJoke) : Joke :=
  { footer := "Source: wocka.com, Category: " ++ value.category ++ ", ID: " ++ toString value.id
    body := value.body
    title := value.title }

/-- A direct child node of the `div#content` element, as the body pipeline
observes it (src/wocka.rs line 65): either a text node or anything else. -/
inductive Node where
  | text (s : String)
  | element
deriving DecidableEq, Repr

/-- Embedding of `x.value().as_text()` on a child node. -/
def Node.asText : Node → Option String
  | .text s => some s
  | .element => none

/-- Abstraction of the parsed HTML document (`Html::parse_document`), at the
level src/wocka.rs observes it through its three selectors:
* `titleText`: `document.select(TITLE_SELECTOR).next().and_then(|x| x.text().next())`
  — the first text node of the first `div#content h2` element, if any;
* `tdContentsTexts`: for each `td.contents` element selected in document
  order, the list of its text-node strings (`x.text().collect::<Vec<_>>()`);
* `contentChildren`: the direct child nodes of the first `div#content`
  element, if that element exists. -/
structure Document where
  titleText : Option String
  tdContentsTexts : List (List String)
  contentChildren : Option (List Node)
deriving DecidableEq, Repr

/-- Model of Rust `str::trim`: drop leading and trailing whitespace
characters. (Defined over the character list so that it evaluates by
kernel reduction; `String.trim` itself is defined by well-founded
recursion.) -/
def strTrim (s : String) : String :=
  ⟨((s.data.dropWhile Char.isWhitespace).reverse.dropWhile Char.isWhitespace).reverse⟩

/-- The trim-and-drop-empty closure used twice in src/wocka.rs
(lines 36-43 and 66-73). -/
def trimNonEmpty (x : String) : Option String :=
  let x := strTrim x
  if x.isEmpty then none else some x

/-- The flattened table of labeled fields (src/wocka.rs lines 31-44):
text of all `td.contents` elements, flattened, trimmed, empties dropped. -/
def jokeDetailsTable (doc : Document) : List String :=
  doc.tdContentsTexts.flatten.filterMap trimNonEmpty

/-- The joined body (src/wocka.rs lines 60-75): keep text child nodes, trim,
drop empties, join with newline separators. -/
def joinedBody (children : List Node) : String :=
  String.intercalate "\n" ((children.filterMap Node.asText).filterMap trimNonEmpty)

/-- Embedding of `extract_joke` (src/wocka.rs lines 17-86) after the HTTP
fetch: the parsing/extraction pipeline applied to the parsed document.
Every failure in the source is `Error::Unhandled("Malformed wocka.com HTML")`. -/
def extract_joke (id : Nat) (doc : Document) : Except Error WockaJoke :=
  match doc.titleText with
  | none => .error (.Unhandled "Malformed wocka.com HTML")
  | some title =>
    let joke_details_table := jokeDetailsTable doc
    match joke_details_table.findIdx? (· == "Category") with
    | none => .error (.Unhandled "Malformed wocka.com HTML")
    | some pos =>
      let category_position := pos + 1
      match joke_details_table[category_position]? with
      | none => .error (.Unhandled "Malformed wocka.com HTML")
      | some category =>
        match doc.contentChildren with
        | none => .error (.Unhandled "Malformed wocka.com HTML")
        | some children =>
          let body := joinedBody children
          if body.isEmpty then .error (.Unhandled "Malformed wocka.com HTML")
          else .ok { title := title, body := body, id := id, category := category }

/-- What the network returns for a given page id: either a transport or
body-read error (`reqwest::get(&url).await?.text().await?`, src/wocka.rs
line 19, surfacing as `Error::Request`), or the page text, abstracted as
the parsed document. A run is parameterized by such a world. -/
inductive FetchResult where
  | transportError
  | page (doc : Document)
deriving DecidableEq, Repr

/-- The full outcome of one `extract_joke` call against world `w`:
a transport failure propagates as `Error::Request`; otherwise the
extraction pipeline runs on the fetched document. -/
def outcomeOf (w : Nat → FetchResult) (id : Nat) : Except Error WockaJoke :=
  match w id with
  | .transportError => .error .Request
  | .page doc => extract_joke id doc

/-- The loop state of `scrape` (src/main.rs lines 129-130 and the CSV sink):
`offset` and `errors` are the two mutable counters; `sink` records the
successfully extracted jokes in the order they are serialized (the CSV rows
are `sink.map Joke.ofWocka`). -/
structure ScrapeState where
  offset : Nat
  errors : Nat
  sink : List WockaJoke
deriving DecidableEq, Repr

/-- Processing of one awaited task outcome (src/main.rs lines 144-155):
`Ok` serializes the joke and resets `errors` to 0; `Err` increments
`errors`. -/
def stepOutcome (s : ScrapeState) (r : Except Error WockaJoke) : ScrapeState :=
  match r with
  | .ok x => { s with sink := s.sink ++ [x], errors := 0 }
  | .error _ => { s with errors := s.errors + 1 }

/-- The ids of one batch (src/main.rs line 133): `1..=joke_tasks` mapped
through `i + offset`, in spawn order. -/
def batchIds (offset tasks : Nat) : List Nat :=
  (List.range' 1 tasks).map (fun i => i + offset)

/-- A spawned task (src/main.rs lines 136-138): the time at which it
happens to complete, and the value its join handle will deliver. -/
structure SpawnedTask where
  completesAt : Nat
  result : Except Error WockaJoke
deriving Repr

/-- One batch of spawned tasks, collected into a vector in spawn order
(src/main.rs lines 133-141); `sched` assigns each id its completion time. -/
def spawnBatch (sched : Nat → Nat) (w : Nat → FetchResult) (offset tasks : Nat) :
    List SpawnedTask :=
  (batchIds offset tasks).map (fun id => { completesAt := sched id, result := outcomeOf w id })

/-- The `for task in tasks` loop (src/main.rs lines 143-158): join handles
are awaited in spawn order — each await returns that task's own result, so
completion times never reorder anything — and each outcome is folded into
the state. -/
def processBatch (sched : Nat → Nat) (w : Nat → FetchResult) (tasks : Nat)
    (s : ScrapeState) : ScrapeState :=
  ((spawnBatch sched w s.offset tasks).map (fun t => t.result)).foldl stepOutcome s

/-- The consecutive-failure threshold compared against at the batch
boundary (the literal `2000` at src/main.rs line 159). -/
def failureThreshold : Nat := 2000

/-- One full loop iteration after the batch (src/main.rs lines 159-162):
process the batch, then at the batch boundary break when
`errors > 2000`, else advance `offset` by `joke_tasks`. The Bool is true
when the loop terminated. -/
def stepRun (sched : Nat → Nat) (w : Nat → FetchResult) (tasks : Nat)
    (s : ScrapeState) : ScrapeState × Bool :=
  let s := processBatch sched w tasks s
  if s.errors > failureThreshold then (s, true)
  else ({ s with offset := s.offset + tasks }, false)

/-- The `loop` of `scrape`, run for at most `fuel` iterations (the source
loop is unbounded; every claim is about a finite prefix of the run). -/
def scrapeAux (sched : Nat → Nat) (w : Nat → FetchResult) (tasks : Nat) :
    Nat → ScrapeState → ScrapeState × Bool
  | 0, s => (s, false)
  | fuel + 1, s =>
    match stepRun sched w tasks s with
    | (s, true) => (s, true)
    | (s, false) => scrapeAux sched w tasks fuel s

/-- Embedding of `scrape` (src/main.rs lines 126-166): starts from
`offset = 0`, `errors = 0`, empty sink. The `no_wocka` flag is received
exactly as in the source signature. The output path and CSV writer are
abstracted into the `sink` list; `fuel` bounds the number of loop
iterations observed. -/
def scrape (no_wocka : Bool) (sched : Nat → Nat) (w : Nat → FetchResult)
    (tasks fuel : Nat) : ScrapeState × Bool :=
  scrapeAux sched w tasks fuel { offset := 0, errors := 0, sink := [] }

/-- Embedding of `NonZeroU64::new` on an already-reduced u64 value. -/
def nonZeroU64New (n : Nat) : Option Nat :=
  if n = 0 then none else some n

/-- Embedding of the page-id construction `NonZeroU64::new(i as u64 + offset)`
(src/main.rs line 137): the u64 addition wraps modulo 2^64. -/
def mkPageId (i offset : Nat) : Option Nat :=
  nonZeroU64New ((i + offset) % 2 ^ 64)

/-! Concrete documents and worlds used by witnesses and counterexamples. -/

/-- A well-formed page: title present, "Category" label followed by a value,
and a non-empty text child in the content container. -/
def goodDoc : Document :=
  { titleText := some "T"
    tdContentsTexts := [["Category", " Animal "]]
    contentChildren := some [Node.text " Why did the chicken ", Node.element, Node.text " "] }

/-- A structurally empty page: every selector comes back empty, so
extraction fails at the title step (a SoftFailure-shaped `Unhandled` error). -/
def emptyDoc : Document :=
  { titleText := none, tdContentsTexts := [], contentChildren := none }

/-- World where every page is well-formed. -/
def wGood : Nat → FetchResult := fun _ => .page goodDoc

/-- World where every page is structurally empty (all extraction attempts
are soft failures). -/
def wEmpty : Nat → FetchResult := fun _ => .page emptyDoc

/-- World where page 2 suffers a transport error and every other page is
structurally empty. -/
def wHard : Nat → FetchResult :=
  fun id => if id = 2 then .transportError else .page emptyDoc

/-! Helper lemmas about `extract_joke`. -/

theorem extract_joke_ok (id : Nat) (doc : Document) (j : WockaJoke)
    (h : extract_joke id doc = .ok j) :
    ∃ title children,
      doc.titleText = some title ∧ doc.contentChildren = some children ∧
      ∃ i, (jokeDetailsTable doc).findIdx? (· == "Category") = some i ∧
        (jokeDetailsTable doc)[i + 1]? = some j.category ∧
        j = { title := title, body := joinedBody children, id := id,
              category := j.category } ∧
        (joinedBody children).isEmpty = false := by
  cases ht : doc.titleText with
  | none => simp [extract_joke, ht] at h
  | some title =>
    cases hf : (jokeDetailsTable doc).findIdx? (· == "Category") with
    | none => simp [extract_joke, ht, hf] at h
    | some i =>
      cases hg : (jokeDetailsTable doc)[i + 1]? with
      | none => simp [extract_joke, ht, hf, hg] at h
      | some category =>
        cases hc : doc.contentChildren with
        | none => simp [extract_joke, ht, hf, hg, hc] at h
        | some children =>
          cases hb : (joinedBody children).isEmpty with
          | true => simp [extract_joke, ht, hf, hg, hc, hb] at h
          | false =>
            have h' : Except.ok (ε := Error) j =
                Except.ok { title := title, body := joinedBody children,
                            id := id, category := category } := by
              rw [← h]
              simp [extract_joke, ht, hf, hg, hc, hb]
            have hj := Except.ok.inj h'
            subst hj
            exact ⟨title, children, rfl, rfl, i, rfl, hg, rfl, hb⟩

/-- C4: `extract_joke` flattens the `td.contents` table to the ordered list
of non-empty trimmed text tokens; the category is the token following the
token equal to "Category"; if that token is absent, or nothing follows it,
the result is a failure (`Err`), never a success. -/
theorem category_extraction_contract (id : Nat) (doc : Document) :
    ((jokeDetailsTable doc).findIdx? (· == "Category") = none →
      (extract_joke id doc).isOk = false)
    ∧ (∀ i, (jokeDetailsTable doc).findIdx? (· == "Category") = some i →
        (jokeDetailsTable doc)[i + 1]? = none →
        (extract_joke id doc).isOk = false)
    ∧ (∀ j, extract_joke id doc = .ok j →
        ∃ i, (jokeDetailsTable doc).findIdx? (· == "Category") = some i ∧
          (jokeDetailsTable doc)[i + 1]? = some j.category) := by
  refine ⟨?_, ?_, ?_⟩
  · intro h
    cases ht : doc.titleText <;> simp [extract_joke, Except.isOk, Except.toBool, ht, h]
  · intro i hi hnone
    cases ht : doc.titleText <;> simp [extract_joke, Except.isOk, Except.toBool, ht, hi, hnone]
  · intro j hj
    obtain ⟨title, children, -, -, i, hf, hcat, -, -⟩ := extract_joke_ok id doc j hj
    exact ⟨i, hf, hcat⟩

/-- C4 witness: on the concrete `emptyDoc` the "Category" token is absent
and extraction indeed fails. -/
theorem category_extraction_contract_witness :
    (extract_joke 7 emptyDoc).isOk = false :=
  (category_extraction_contract 7 emptyDoc).1 (by decide)

/-- C5: the body is built from the direct children of the content
container — text nodes only, trimmed, empties dropped, joined with
newlines; an empty joined body makes `extract_joke` fail, and on success
the record's body is exactly the joined string. -/
theorem body_construction_contract (id : Nat) (doc : Document)
    (children : List Node) (hc : doc.contentChildren = some children) :
    (joinedBody children = "" → (extract_joke id doc).isOk = false)
    ∧ (∀ j, extract_joke id doc = .ok j → j.body = joinedBody children) := by
  constructor
  · intro h
    have hb : (joinedBody children).isEmpty = true := (String.isEmpty_iff _).mpr h
    cases ht : doc.titleText with
    | none => simp [extract_joke, Except.isOk, Except.toBool, ht]
    | some title =>
      cases hf : (jokeDetailsTable doc).findIdx? (· == "Category") with
      | none => simp [extract_joke, Except.isOk, Except.toBool, ht, hf]
      | some i =>
        cases hg : (jokeDetailsTable doc)[i + 1]? with
        | none => simp [extract_joke, Except.isOk, Except.toBool, ht, hf, hg]
        | some category => simp [extract_joke, Except.isOk, Except.toBool, ht, hf, hg, hc, hb]
  · intro j hj
    obtain ⟨title, children', -, hc', -, -, -, hj', -⟩ := extract_joke_ok id doc j hj
    rw [hc] at hc'
    cases hc'
    rw [hj']

/-- C5 witness: on `goodDoc` the joined body is the trimmed text child, and
the successful record carries exactly that body. -/
theorem body_construction_contract_witness :
    (extract_joke 1 goodDoc).isOk = true ∧
    (∀ j, extract_joke 1 goodDoc = .ok j → j.body = joinedBody
      [Node.text " Why did the chicken ", Node.element, Node.text " "]) :=
  ⟨by decide, (body_construction_contract 1 goodDoc _ rfl).2⟩

/-! Helper lemmas about the scrape loop. -/

theorem extract_joke_ok_body_ne (id : Nat) (doc : Document) (j : WockaJoke)
    (h : extract_joke id doc = .ok j) : j.body ≠ "" := by
  obtain ⟨title, children, -, -, i, -, -, hj, hb⟩ := extract_joke_ok id doc j h
  intro hcontra
  have : (joinedBody children) = "" := by rw [hj] at hcontra; exact hcontra
  rw [(String.isEmpty_iff _).mpr this] at hb
  exact Bool.false_ne_true hb.symm

theorem extract_joke_ok_id (id : Nat) (doc : Document) (j : WockaJoke)
    (h : extract_joke id doc = .ok j) : j.id = id := by
  obtain ⟨title, children, -, -, i, -, -, hj, -⟩ := extract_joke_ok id doc j h
  rw [hj]

theorem outcomeOf_ok_body_ne (w : Nat → FetchResult) (id : Nat) (j : WockaJoke)
    (h : outcomeOf w id = .ok j) : j.body ≠ "" := by
  unfold outcomeOf at h
  cases hw : w id with
  | transportError => rw [hw] at h; exact absurd h (by simp)
  | page doc => rw [hw] at h; exact extract_joke_ok_body_ne id doc j h

theorem outcomeOf_ok_id (w : Nat → FetchResult) (id : Nat) (j : WockaJoke)
    (h : outcomeOf w id = .ok j) : j.id = id := by
  unfold outcomeOf at h
  cases hw : w id with
  | transportError => rw [hw] at h; exact absurd h (by simp)
  | page doc => rw [hw] at h; exact extract_joke_ok_id id doc j h

theorem stepOutcome_sink (s : ScrapeState) (r : Except Error WockaJoke) :
    (stepOutcome s r).sink = match r with
      | .ok x => s.sink ++ [x]
      | .error _ => s.sink := by
  cases r <;> rfl

theorem stepOutcome_offset (s : ScrapeState) (r : Except Error WockaJoke) :
    (stepOutcome s r).offset = s.offset := by
  cases r <;> rfl

theorem foldl_stepOutcome_mem (rs : List (Except Error WockaJoke))
    (s : ScrapeState) (j : WockaJoke) (h : j ∈ (rs.foldl stepOutcome s).sink) :
    j ∈ s.sink ∨ (Except.ok j) ∈ rs := by
  induction rs generalizing s with
  | nil => exact .inl h
  | cons r rs ih =>
    rcases ih (stepOutcome s r) h with h' | h'
    · cases r with
      | ok x =>
        rcases List.mem_append.mp (by rw [stepOutcome_sink] at h'; exact h') with h2 | h2
        · exact .inl h2
        · rcases List.mem_singleton.mp h2 with rfl
          exact .inr (List.mem_cons_self _ _)
      | error e =>
        rw [stepOutcome_sink] at h'
        exact .inl h'
    · exact .inr (List.mem_cons_of_mem _ h')

theorem foldl_stepOutcome_offset (rs : List (Except Error WockaJoke))
    (s : ScrapeState) : (rs.foldl stepOutcome s).offset = s.offset := by
  induction rs generalizing s with
  | nil => rfl
  | cons r rs ih => rw [List.foldl_cons, ih, stepOutcome_offset]

/-- The batch fold re-expressed directly over the batch ids. -/
theorem processBatch_eq (sched : Nat → Nat) (w : Nat → FetchResult)
    (tasks : Nat) (s : ScrapeState) :
    processBatch sched w tasks s =
      ((batchIds s.offset tasks).map (outcomeOf w)).foldl stepOutcome s := by
  unfold processBatch spawnBatch
  rw [List.map_map]
  rfl

theorem processBatch_mem (sched : Nat → Nat) (w : Nat → FetchResult)
    (tasks : Nat) (s : ScrapeState) (j : WockaJoke)
    (h : j ∈ (processBatch sched w tasks s).sink) :
    j ∈ s.sink ∨ ∃ id ∈ batchIds s.offset tasks, outcomeOf w id = .ok j := by
  rw [processBatch_eq] at h
  rcases foldl_stepOutcome_mem _ _ _ h with h' | h'
  · exact .inl h'
  · rcases List.mem_map.mp h' with ⟨id, hid, hok⟩
    exact .inr ⟨id, hid, hok⟩

theorem processBatch_offset (sched : Nat → Nat) (w : Nat → FetchResult)
    (tasks : Nat) (s : ScrapeState) :
    (processBatch sched w tasks s).offset = s.offset := by
  rw [processBatch_eq, foldl_stepOutcome_offset]

theorem scrapeAux_sink_body (sched : Nat → Nat) (w : Nat → FetchResult)
    (tasks : Nat) : ∀ (fuel : Nat) (s : ScrapeState),
    (∀ j ∈ s.sink, j.body ≠ "") →
    ∀ j ∈ (scrapeAux sched w tasks fuel s).1.sink, j.body ≠ "" := by
  intro fuel
  induction fuel with
  | zero => intro s hs; exact hs
  | succ fuel ih =>
    intro s hs j hj
    have hbatch : ∀ j ∈ (processBatch sched w tasks s).sink, j.body ≠ "" := by
      intro j' hj'
      rcases processBatch_mem sched w tasks s j' hj' with h' | ⟨id, -, hok⟩
      · exact hs j' h'
      · exact outcomeOf_ok_body_ne w id j' hok
    rw [scrapeAux] at hj
    unfold stepRun at hj
    by_cases hterm : (processBatch sched w tasks s).errors > failureThreshold
    · simp only [hterm, if_pos] at hj
      exact hbatch j hj
    · simp only [hterm, if_neg, not_false_iff] at hj
      exact ih { processBatch sched w tasks s with
                   offset := (processBatch sched w tasks s).offset + tasks }
        (by intro j' hj'; exact hbatch j' hj') j hj

/-- C1 counterexample: in `wHard` page 2 yields a transport HardFailure
(`Error::Request`), and processing that outcome moves the counter from 1
to 2 — it is incremented like any other failure, contradicting the claim
that HardFailure leaves it unchanged. Processing the batch
[SoftFailure, HardFailure, SoftFailure] yields a count of 3, not 2. -/
theorem hard_failure_unchanged_cex :
    outcomeOf wHard 2 = .error .Request
    ∧ (stepOutcome { offset := 0, errors := 1, sink := [] } (outcomeOf wHard 2)).errors = 2
    ∧ (processBatch (fun _ => 0) wHard 3 { offset := 0, errors := 0, sink := [] }).errors = 3 := by
  refine ⟨rfl, rfl, ?_⟩
  decide

/-- C1 amended: a HardFailure outcome (a transport/protocol error or an
unreadable body, surfacing as `Error::Request`) increments the Dispatcher's
counter by exactly 1 — exactly as a SoftFailure does — leaving sink and
offset unchanged; it therefore does contribute to the termination
predicate. -/
theorem hard_failure_increments (s : ScrapeState) (w : Nat → FetchResult)
    (id : Nat) (h : w id = .transportError) :
    stepOutcome s (outcomeOf w id) = { s with errors := s.errors + 1 } := by
  simp [outcomeOf, h, stepOutcome]

/-- C1 amended witness: at the concrete transport failure of `wHard` on
page 2 the counter is incremented from 0 to 1. -/
theorem hard_failure_increments_witness :
    stepOutcome { offset := 0, errors := 0, sink := [] } (outcomeOf wHard 2)
      = { offset := 0, errors := 1, sink := [] } :=
  hard_failure_increments { offset := 0, errors := 0, sink := [] } wHard 2 rfl

/-- C3: for every state, a Success outcome (an `Ok` joke) resets the
consecutive-failure counter to 0 regardless of its prior value (and appends
the record to the sink), and a SoftFailure outcome (the `Unhandled` error
produced by `extract_joke`) increments the counter by exactly 1. -/
theorem success_resets_soft_increments (s : ScrapeState) (x : WockaJoke)
    (msg : String) :
    (stepOutcome s (.ok x)).errors = 0
    ∧ (stepOutcome s (.ok x)).sink = s.sink ++ [x]
    ∧ (stepOutcome s (.error (.Unhandled msg))).errors = s.errors + 1 :=
  ⟨rfl, rfl, rfl⟩

/-- C6: every record handed to the CSV sink over the entire run — for any
world, any batch size, any number of iterations — has a non-empty body. -/
theorem sink_records_nonempty_body (no_wocka : Bool) (sched : Nat → Nat)
    (w : Nat → FetchResult) (tasks fuel : Nat) :
    ∀ r ∈ ((scrape no_wocka sched w tasks fuel).1.sink).map Joke.ofWocka,
      r.body ≠ "" := by
  intro r hr
  rcases List.mem_map.mp hr with ⟨j, hj, rfl⟩
  have : j.body ≠ "" :=
    scrapeAux_sink_body sched w tasks fuel
      { offset := 0, errors := 0, sink := [] } (by intro j' hj'; cases hj') j hj
  simpa [Joke.ofWocka] using this

/-- C6 witness: in the all-good world a record reaches the sink after one
batch of one task, and its body is non-empty. -/
theorem sink_records_nonempty_body_witness :
    (Joke.ofWocka { title := "T", body := "Why did the chicken", id := 1,
                    category := "Animal" }).body ≠ "" :=
  sink_records_nonempty_body true (fun _ => 0) wGood 1 1
    (Joke.ofWocka { title := "T", body := "Why did the chicken", id := 1,
                    category := "Animal" }) (by decide)

/-- The non-terminating branch of one loop iteration: process the batch and
advance the offset by the batch size (src/main.rs line 162). -/
def advanceBatch (sched : Nat → Nat) (w : Nat → FetchResult) (tasks : Nat)
    (s : ScrapeState) : ScrapeState :=
  let s := processBatch sched w tasks s
  { s with offset := s.offset + tasks }

/-- Iterated `advanceBatch`. -/
def iterAdvance (sched : Nat → Nat) (w : Nat → FetchResult) (tasks : Nat) :
    Nat → ScrapeState → ScrapeState
  | 0, s => s
  | k + 1, s => iterAdvance sched w tasks k (advanceBatch sched w tasks s)

/-- The loop state at the start of the k-th batch (0-based), were the loop
never to terminate. -/
def stateAfter (sched : Nat → Nat) (w : Nat → FetchResult) (tasks k : Nat) :
    ScrapeState :=
  iterAdvance sched w tasks k { offset := 0, errors := 0, sink := [] }

theorem stepRun_eq (sched : Nat → Nat) (w : Nat → FetchResult) (tasks : Nat)
    (s : ScrapeState) :
    stepRun sched w tasks s =
      if (processBatch sched w tasks s).errors > failureThreshold
      then (processBatch sched w tasks s, true)
      else (advanceBatch sched w tasks s, false) := rfl

theorem scrapeAux_succ (sched : Nat → Nat) (w : Nat → FetchResult)
    (tasks fuel : Nat) (s : ScrapeState) :
    scrapeAux sched w tasks (fuel + 1) s =
      if (processBatch sched w tasks s).errors > failureThreshold
      then (processBatch sched w tasks s, true)
      else scrapeAux sched w tasks fuel (advanceBatch sched w tasks s) := by
  rw [scrapeAux, stepRun_eq]
  by_cases hterm : (processBatch sched w tasks s).errors > failureThreshold
  · simp [hterm]
  · simp [hterm]

theorem scrapeAux_term_iff (sched : Nat → Nat) (w : Nat → FetchResult)
    (tasks : Nat) : ∀ (fuel : Nat) (s : ScrapeState),
    (scrapeAux sched w tasks fuel s).2 = true ↔
      ∃ k < fuel,
        (processBatch sched w tasks (iterAdvance sched w tasks k s)).errors >
          failureThreshold := by
  intro fuel
  induction fuel with
  | zero => intro s; simp [scrapeAux]
  | succ fuel ih =>
    intro s
    rw [scrapeAux_succ]
    by_cases hterm : (processBatch sched w tasks s).errors > failureThreshold
    · rw [if_pos hterm]
      exact ⟨fun _ => ⟨0, Nat.succ_pos _, hterm⟩, fun _ => rfl⟩
    · rw [if_neg hterm, ih (advanceBatch sched w tasks s)]
      constructor
      · rintro ⟨k, hk, hgt⟩
        exact ⟨k + 1, Nat.succ_lt_succ hk, hgt⟩
      · rintro ⟨k, hk, hgt⟩
        cases k with
        | zero => exact absurd hgt hterm
        | succ k => exact ⟨k, Nat.lt_of_succ_lt_succ hk, hgt⟩

theorem scrapeAux_term_state (sched : Nat → Nat) (w : Nat → FetchResult)
    (tasks : Nat) : ∀ (fuel : Nat) (s : ScrapeState),
    (scrapeAux sched w tasks fuel s).2 = true →
    ∃ k < fuel,
      (scrapeAux sched w tasks fuel s).1 =
        processBatch sched w tasks (iterAdvance sched w tasks k s)
      ∧ (processBatch sched w tasks (iterAdvance sched w tasks k s)).errors >
          failureThreshold
      ∧ ∀ k' < k,
          (processBatch sched w tasks (iterAdvance sched w tasks k' s)).errors ≤
            failureThreshold := by
  intro fuel
  induction fuel with
  | zero => intro s h; simp [scrapeAux] at h
  | succ fuel ih =>
    intro s h
    rw [scrapeAux_succ] at h ⊢
    by_cases hterm : (processBatch sched w tasks s).errors > failureThreshold
    · rw [if_pos hterm]
      exact ⟨0, Nat.succ_pos _, rfl, hterm, fun k' hk' => absurd hk' (Nat.not_lt_zero _)⟩
    · rw [if_neg hterm] at h ⊢
      obtain ⟨k, hk, heq, hgt, hmin⟩ := ih (advanceBatch sched w tasks s) h
      refine ⟨k + 1, Nat.succ_lt_succ hk, heq, hgt, ?_⟩
      intro k' hk'
      cases k' with
      | zero => exact Nat.le_of_not_lt hterm
      | succ k' => exact hmin k' (Nat.lt_of_succ_lt_succ hk')

/-- A batch in which every outcome is a failure adds exactly the batch size
to the counter. -/
theorem foldl_all_error (w : Nat → FetchResult)
    (hall : ∀ id, (outcomeOf w id).isOk = false) :
    ∀ (ids : List Nat) (s : ScrapeState),
    ((ids.map (outcomeOf w)).foldl stepOutcome s).errors = s.errors + ids.length := by
  intro ids
  induction ids with
  | nil => intro s; simp
  | cons id ids ih =>
    intro s
    rw [List.map_cons, List.foldl_cons]
    cases hid : outcomeOf w id with
    | ok x =>
      have hfalse := hall id
      rw [hid] at hfalse
      exact absurd hfalse (by simp [Except.isOk, Except.toBool])
    | error e =>
      rw [ih (stepOutcome s (.error e))]
      simp [stepOutcome, List.length_cons]
      omega

theorem processBatch_all_error (sched : Nat → Nat) (w : Nat → FetchResult)
    (tasks : Nat) (s : ScrapeState)
    (hall : ∀ id, (outcomeOf w id).isOk = false) :
    (processBatch sched w tasks s).errors = s.errors + tasks := by
  rw [processBatch_eq, foldl_all_error w hall]
  simp [batchIds]

/-- C2: the run terminates if and only if, at some batch boundary within
the observed iterations, the counter strictly exceeds the threshold; and
when it terminates, the final state is the state after processing the whole
batch at the first such boundary — the count exceeding the threshold
mid-batch never stops the run before the batch boundary. -/
theorem termination_at_batch_boundary (no_wocka : Bool) (sched : Nat → Nat)
    (w : Nat → FetchResult) (tasks fuel : Nat) :
    ((scrape no_wocka sched w tasks fuel).2 = true ↔
      ∃ k < fuel,
        (processBatch sched w tasks (stateAfter sched w tasks k)).errors >
          failureThreshold)
    ∧ ((scrape no_wocka sched w tasks fuel).2 = true →
      ∃ k < fuel,
        (scrape no_wocka sched w tasks fuel).1 =
          processBatch sched w tasks (stateAfter sched w tasks k)
        ∧ (processBatch sched w tasks (stateAfter sched w tasks k)).errors >
            failureThreshold
        ∧ ∀ k' < k,
            (processBatch sched w tasks (stateAfter sched w tasks k')).errors ≤
              failureThreshold) :=
  ⟨scrapeAux_term_iff sched w tasks fuel _,
   scrapeAux_term_state sched w tasks fuel _⟩

/-- C2 witness: with every page structurally empty and a batch size of
2001, the run terminates after the first batch (counter 2001 > 2000). -/
theorem termination_at_batch_boundary_witness :
    (scrape true (fun _ => 0) wEmpty 2001 1).2 = true :=
  (termination_at_batch_boundary true (fun _ => 0) wEmpty 2001 1).1.mpr
    ⟨0, Nat.zero_lt_one, by
      rw [show stateAfter (fun _ => 0) wEmpty 2001 0 =
            { offset := 0, errors := 0, sink := [] } from rfl,
          processBatch_all_error (fun _ => 0) wEmpty 2001 { offset := 0, errors := 0, sink := [] } (fun id => rfl)]
      exact Nat.lt_succ_self 2000⟩

/-! Lemmas about id order across the run. -/

theorem batchIds_eq_range' (offset tasks : Nat) :
    batchIds offset tasks = List.range' (offset + 1) tasks := by
  unfold batchIds
  rw [show (fun i => i + offset) = (fun i => offset + i) from
        funext fun i => Nat.add_comm i offset,
      List.map_add_range']

theorem foldl_sink_ids_sublist (w : Nat → FetchResult) :
    ∀ (ids : List Nat) (s : ScrapeState),
    ((((ids.map (outcomeOf w)).foldl stepOutcome s).sink.map (fun j => j.id))).Sublist
      ((s.sink.map (fun j => j.id)) ++ ids) := by
  intro ids
  induction ids with
  | nil => intro s; simp
  | cons id ids ih =>
    intro s
    rw [List.map_cons, List.foldl_cons]
    cases hid : outcomeOf w id with
    | ok x =>
      have hx : x.id = id := outcomeOf_ok_id w id x hid
      have h1 := ih (stepOutcome s (.ok x))
      simp only [stepOutcome, List.map_append, List.map_cons, List.map_nil,
        List.append_assoc, List.singleton_append] at h1
      rw [hx] at h1
      exact h1
    | error e =>
      have h1 := ih (stepOutcome s (.error e))
      simp only [stepOutcome] at h1
      exact h1.trans (List.Sublist.append_left (List.sublist_cons_self id ids) _)

theorem processBatch_sorted (sched : Nat → Nat) (w : Nat → FetchResult)
    (tasks : Nat) (s : ScrapeState)
    (hsorted : List.Pairwise (· < ·) (s.sink.map (fun j => j.id)))
    (hbound : ∀ j ∈ s.sink, j.id ≤ s.offset) :
    List.Pairwise (· < ·) ((processBatch sched w tasks s).sink.map (fun j => j.id))
    ∧ ∀ j ∈ (processBatch sched w tasks s).sink, j.id ≤ s.offset + tasks := by
  have hids_sorted : List.Pairwise (· < ·) (batchIds s.offset tasks) := by
    rw [batchIds_eq_range']
    exact List.pairwise_lt_range' _ _
  have happ : List.Pairwise (· < ·)
      ((s.sink.map (fun j => j.id)) ++ batchIds s.offset tasks) :=
    List.pairwise_append.mpr ⟨hsorted, hids_sorted, by
      intro a ha b hb
      rcases List.mem_map.mp ha with ⟨j, hj, rfl⟩
      have h1 := hbound j hj
      rw [batchIds_eq_range'] at hb
      have h2 := (List.mem_range'_1.mp hb).1
      omega⟩
  constructor
  · have hsub := foldl_sink_ids_sublist w (batchIds s.offset tasks) s
    rw [← processBatch_eq sched] at hsub
    exact List.Pairwise.sublist hsub happ
  · intro j hj
    rcases processBatch_mem sched w tasks s j hj with h | ⟨id, hid, hok⟩
    · exact le_trans (hbound j h) (Nat.le_add_right _ _)
    · rw [outcomeOf_ok_id w id j hok]
      rw [batchIds_eq_range'] at hid
      have h2 := List.mem_range'_1.mp hid
      omega

theorem scrapeAux_sorted (sched : Nat → Nat) (w : Nat → FetchResult)
    (tasks : Nat) : ∀ (fuel : Nat) (s : ScrapeState),
    List.Pairwise (· < ·) (s.sink.map (fun j => j.id)) →
    (∀ j ∈ s.sink, j.id ≤ s.offset) →
    List.Pairwise (· < ·)
      ((scrapeAux sched w tasks fuel s).1.sink.map (fun j => j.id)) := by
  intro fuel
  induction fuel with
  | zero => intro s hs _; exact hs
  | succ fuel ih =>
    intro s hs hb
    rw [scrapeAux_succ]
    by_cases hterm : (processBatch sched w tasks s).errors > failureThreshold
    · rw [if_pos hterm]
      exact (processBatch_sorted sched w tasks s hs hb).1
    · rw [if_neg hterm]
      refine ih (advanceBatch sched w tasks s)
        (processBatch_sorted sched w tasks s hs hb).1 ?_
      intro j hj
      have h2 := (processBatch_sorted sched w tasks s hs hb).2 j hj
      have h3 : (advanceBatch sched w tasks s).offset = s.offset + tasks := by
        simp [advanceBatch, processBatch_offset]
      rw [h3]
      exact h2

theorem processBatch_sched_indep (sched sched2 : Nat → Nat)
    (w : Nat → FetchResult) (tasks : Nat) (s : ScrapeState) :
    processBatch sched w tasks s = processBatch sched2 w tasks s := by
  rw [processBatch_eq, processBatch_eq]

theorem scrapeAux_sched_indep (sched sched2 : Nat → Nat)
    (w : Nat → FetchResult) (tasks : Nat) : ∀ (fuel : Nat) (s : ScrapeState),
    scrapeAux sched w tasks fuel s = scrapeAux sched2 w tasks fuel s := by
  intro fuel
  induction fuel with
  | zero => intro s; rfl
  | succ fuel ih =>
    intro s
    rw [scrapeAux_succ, scrapeAux_succ, processBatch_sched_indep sched sched2 w tasks s]
    by_cases h : (processBatch sched2 w tasks s).errors > failureThreshold
    · rw [if_pos h, if_pos h]
    · rw [if_neg h, if_neg h, ih]
      congr 1
      unfold advanceBatch
      rw [processBatch_sched_indep sched sched2 w tasks s]

/-- C7: the ids of each batch are exactly `offset+1 .. offset+batchSize`
in ascending order; when the loop continues past a batch boundary the
offset has advanced by exactly the batch size; the whole run is
independent of the order in which the concurrent calls happen to complete
(the `sched` completion times); and the ids of the records written to the
sink are strictly ascending over the entire run. -/
theorem ascending_id_order (no_wocka : Bool) (sched sched2 : Nat → Nat)
    (w : Nat → FetchResult) (tasks fuel : Nat) (s : ScrapeState) :
    batchIds s.offset tasks = List.range' (s.offset + 1) tasks
    ∧ ((stepRun sched w tasks s).2 = false →
        (stepRun sched w tasks s).1.offset = s.offset + tasks)
    ∧ scrape no_wocka sched w tasks fuel = scrape no_wocka sched2 w tasks fuel
    ∧ List.Pairwise (· < ·)
        (((scrape no_wocka sched w tasks fuel).1.sink).map (fun j => j.id)) := by
  refine ⟨batchIds_eq_range' s.offset tasks, ?_, ?_, ?_⟩
  · intro hcont
    rw [stepRun_eq] at hcont ⊢
    by_cases hterm : (processBatch sched w tasks s).errors > failureThreshold
    · rw [if_pos hterm] at hcont
      exact absurd hcont (by simp)
    · rw [if_neg hterm]
      show (advanceBatch sched w tasks s).offset = s.offset + tasks
      simp [advanceBatch, processBatch_offset]
  · exact scrapeAux_sched_indep sched sched2 w tasks fuel _
  · exact scrapeAux_sorted sched w tasks fuel
      { offset := 0, errors := 0, sink := [] }
      (by simp) (by intro j hj; cases hj)

/-- C7 witness: at the initial state with batch size 2 in the all-good
world the loop continues, and the offset after the first boundary is 2. -/
theorem ascending_id_order_witness :
    (stepRun (fun _ => 0) wGood 2 { offset := 0, errors := 0, sink := [] }).1.offset
      = 0 + 2 :=
  (ascending_id_order true (fun _ => 0) (fun _ => 1) wGood 2 1
      { offset := 0, errors := 0, sink := [] }).2.1 (by decide)

/-- Modelled from the spec: the LengthFilter component (spec section 4.4)
does not occur anywhere in src/ — the scrape loop forwards every success
to the sink unconditionally — so its contract is modelled from the spec's
words: "`accept(record, limit: optional integer) -> boolean`. Pure
predicate: `true` if `limit` is unset, or `record.body` character length
≤ `limit`." -/
def accept (record : Joke) (limit : Option Nat) : Bool :=
  match limit with
  | none => true
  | some l => record.body.length ≤ l

/-- Modelled from the spec: dispatcher step 2d routes a Success through the
LengthFilter before the sink — "if configured and body length exceeds the
limit, discard silently, else forward to RecordSink". -/
def routeFiltered (record : Joke) (limit : Option Nat) (sink : List Joke) :
    List Joke :=
  if accept record limit then sink ++ [record] else sink

/-- C8: `accept` is a pure predicate — false iff the body's character
length exceeds the limit, always true when no limit is configured — and a
rejected record is silently discarded (the sink is unchanged). -/
theorem length_filter_contract (record : Joke) (l : Nat) (sink : List Joke) :
    (accept record (some l) = false ↔ record.body.length > l)
    ∧ accept record none = true
    ∧ (accept record (some l) = false →
        routeFiltered record (some l) sink = sink) := by
  refine ⟨?_, rfl, ?_⟩
  · simp [accept, Nat.not_le]
  · intro h
    simp [routeFiltered, h]

/-- C8 witness: a record with a 3-character body is rejected by limit 2 and
discarded before the sink. -/
theorem length_filter_contract_witness :
    routeFiltered { footer := "", body := "abc", title := "" } (some 2) [] = [] :=
  (length_filter_contract { footer := "", body := "abc", title := "" } 2 []).2.2
    (by decide)

/-- C9: `scrape` is independent of the `no_wocka` command-line flag — two
runs identical except for the flag produce identical states (same sink
records, same offsets, hence the same fetched ids) and the same
termination point. The flag is received by `scrape` exactly as in the
source signature and never read. -/
theorem scrape_ignores_no_wocka (b1 b2 : Bool) (sched : Nat → Nat)
    (w : Nat → FetchResult) (tasks fuel : Nat) :
    scrape b1 sched w tasks fuel = scrape b2 sched w tasks fuel := rfl

/-- C10: constructing a PageId as `NonZeroU64::new(i + offset)` with
`1 ≤ i ≤ batchSize` never yields `None` (the `unwrap` is unreachable),
provided `offset + batchSize` does not overflow u64. -/
theorem page_id_construction (i offset tasks : Nat)
    (hov : offset + tasks < 2 ^ 64) (h1 : 1 ≤ i) (h2 : i ≤ tasks) :
    (mkPageId i offset).isSome = true := by
  have hlt : i + offset < 2 ^ 64 := by omega
  unfold mkPageId nonZeroU64New
  rw [Nat.mod_eq_of_lt hlt]
  have hne : i + offset ≠ 0 := by omega
  simp [hne]

/-- C10 witness: the first id of the first default-sized batch. -/
theorem page_id_construction_witness : (mkPageId 1 0).isSome = true :=
  page_id_construction 1 0 50 (by norm_num) (by norm_num) (by norm_num)

end Jokeset
